import Mathlib

/-!
Verification of the detective-game state machine, accusation judge,
progression engine and persistence layer of src/app.js (the main document
of the file, after the separator at line 558).  JavaScript strings are
modelled as Lean strings; string operations (toLowerCase, trim, includes)
are modelled on ASCII data, which covers every literal the program and the
claims use.  Machine numbers are modelled as Int / Nat with the exact
guards of the source, so no overflow arises on the inputs considered.
-/

namespace Redacted

/-- leadsWith needle hay: needle occurs at the very start of hay. -/
def leadsWith : List Char → List Char → Bool
  | [], _ => true
  | _ :: _, [] => false
  | c :: cs, d :: ds => c = d && leadsWith cs ds

/-- hasSub needle hay: needle occurs contiguously somewhere in hay. -/
def hasSub (needle : List Char) : List Char → Bool
  | [] => needle.isEmpty
  | d :: ds => leadsWith needle (d :: ds) || hasSub needle ds

/-- JavaScript String.prototype.includes: strIncludes hay needle. -/
def strIncludes (hay needle : String) : Bool :=
  hasSub needle.toList hay.toList

/-- The whitespace characters JavaScript trim removes, restricted to the
ASCII range the program's data uses. -/
def isJsSpace (c : Char) : Bool :=
  c.val = 32 ∨ c.val = 9 ∨ c.val = 10 ∨ c.val = 13 ∨ c.val = 11 ∨ c.val = 12

/-- JavaScript String.prototype.trim on ASCII data. -/
def jsTrim (s : String) : String :=
  ⟨((s.data.dropWhile isJsSpace).reverse.dropWhile isJsSpace).reverse⟩

/-- JavaScript String.prototype.toLowerCase on ASCII data (Char.toLower
lowers exactly the ASCII capitals). -/
def jsToLower (s : String) : String :=
  ⟨s.data.map Char.toLower⟩

/-- A suspect record of a Case, from the fields the game logic reads.
generic is the optional list of filler lines; none models a missing
(undefined) property, as tested by the truthiness check in the source. -/
structure Suspect where
  id : String
  alibi : String
  motive : String
  relationship : String
  evidence : String
  generic : Option (List String)
  deriving Repr, DecidableEq

/-- The evidence bundle of a case (src: caseData.evidence). -/
structure EvidenceBundle where
  initial : List String
  bodySearch : List String
  roomSearch : List String
  labClue : String
  deriving Repr, DecidableEq

/-- A case, restricted to the fields the game logic reads. -/
structure Case where
  id : String
  suspects : List Suspect
  evidence : EvidenceBundle
  killerId : String
  motiveKeywords : List String
  deriving Repr, DecidableEq

/-- The outcome computed by handleAccusation (src/app.js lines 2014-2029):
the three booleans isCorrectSuspect / isCorrectMotive / success together
with the two intermediate counts the source computes. -/
structure AccusationResult where
  correctSuspect : Bool
  keywordHits : Nat
  requiredHits : Nat
  correctMotive : Bool
  success : Bool
  deriving Repr, DecidableEq

/-- handleAccusation, src/app.js lines 2014-2029, as the pure judgement it
computes.  The source reads suspectId and the raw motive text from the
form, lowers and trims the motive, validates both non-empty (falsy check),
and computes the verdict.  none models the input-validation early return. -/
def handleAccusation (c : Case) (suspectId motiveRaw : String) : Option AccusationResult :=
  let motiveText := jsToLower (jsTrim motiveRaw)
  if suspectId = "" ∨ motiveText = "" then none
  else
    let isCorrectSuspect := decide (suspectId = c.killerId)
    let keywordHits := (c.motiveKeywords.filter (fun k => strIncludes motiveText k)).length
    let requiredHits := (c.motiveKeywords.length + 1) / 2
    let isCorrectMotive := decide (requiredHits ≤ keywordHits)
    some ⟨isCorrectSuspect, keywordHits, requiredHits, isCorrectMotive,
          isCorrectSuspect && isCorrectMotive⟩

/-- The keyword count the claim describes: fully case-insensitive substring
matching, i.e. both the motive text and the keyword are lowered.  This
definition follows the words of claim C1, to be compared with the source. -/
def claimKeywordHits (c : Case) (motiveRaw : String) : Nat :=
  (c.motiveKeywords.filter
    (fun k => strIncludes (jsToLower (jsTrim motiveRaw)) (jsToLower k))).length

/-- The mutable per-case game state, the fields of the global state object
that the investigation operations read and write.  responseIndex models the
JavaScript object with the reading discipline of the source (absent keys
read as 0 via the nullish-coalescing default). -/
structure Session where
  actionPoints : Int
  selectedSuspectId : Option String
  evidenceFound : List String
  labReady : Bool
  labProcessing : Bool
  responseIndex : String → Nat

/-- startCase, src/app.js lines 1858-1867: the session fields after opening
a case (DOM work elided). -/
def startCase (c : Case) : Session :=
  { actionPoints := 20
    selectedSuspectId := none
    evidenceFound := c.evidence.initial
    labReady := true
    labProcessing := false
    responseIndex := fun _ => 0 }

/-- getScriptedResponse, src/app.js lines 1742-1760.  Returns the reply
(none models the JavaScript undefined produced when generic is a present
but empty array) and the updated responseIndex map.  The cursor write on
the fallback path is unconditional in the source. -/
def getScriptedResponse (resp : String → Nat) (sp : Suspect) (text : String) :
    Option String × (String → Nat) :=
  let lower := jsToLower text
  if strIncludes lower "alibi" || strIncludes lower "where" || strIncludes lower "time" then
    (some sp.alibi, resp)
  else if strIncludes lower "motive" || strIncludes lower "why" then
    (some sp.motive, resp)
  else if strIncludes lower "relationship" || strIncludes lower "victim" then
    (some sp.relationship, resp)
  else if strIncludes lower "evidence" || strIncludes lower "clue" then
    (some sp.evidence, resp)
  else
    let index := resp sp.id
    let line := match sp.generic with
      | some l => l.get? (index % l.length)
      | none => some "I have nothing to say."
    (line, fun k => if k = sp.id then index + 1 else resp k)

/-- The two search kinds handleSearch distinguishes. -/
inductive SearchKind where
  | body
  | room
  deriving Repr, DecidableEq

/-- The evidence list handleSearch consults for a kind. -/
def searchList (c : Case) : SearchKind → List String
  | .body => c.evidence.bodySearch
  | .room => c.evidence.roomSearch

/-- The discrete player inputs and timer events that drive the session.
labComplete is the delayed body of the sendToLab timeout, which fires
exactly when a lab run is in flight. -/
inductive Op where
  | selectSuspect (suspectId : String)
  | sendMessage (text : String)
  | search (kind : SearchKind)
  | sendToLab
  | labComplete
  | accuse (suspectId motiveRaw : String)

/-- One step of the session machine: the exact state updates of
selectSuspect (line 1780), handleUserMessage (1906-1947), handleSearch
(1950-1982), handleLab (1984-2012, with the timeout body as labComplete)
and handleAccusation (2014-2070, which never writes these fields). -/
def step (c : Case) (s : Session) : Op → Session
  | .selectSuspect suspectId =>
      { s with selectedSuspectId := some suspectId }
  | .sendMessage text =>
      if s.selectedSuspectId.isNone ∨ s.actionPoints ≤ 0 then s
      else if jsTrim text = "" then s
      else
        let s' := { s with actionPoints := s.actionPoints - 1 }
        match s.selectedSuspectId.bind (fun sid => c.suspects.find? (fun sp => sp.id = sid)) with
        | some sp => { s' with responseIndex := (getScriptedResponse s'.responseIndex sp (jsTrim text)).2 }
        | none => s'
  | .search kind =>
      if s.actionPoints ≤ 0 then s
      else
        let newItems := searchList c kind
        let added := newItems.filter (fun item => decide (item ∉ s.evidenceFound))
        if added.isEmpty then s
        else { s with actionPoints := s.actionPoints - 1
                      evidenceFound := s.evidenceFound ++ added }
  | .sendToLab =>
      if s.actionPoints ≤ 0 ∨ ¬ s.labReady ∨ s.labProcessing then s
      else { s with actionPoints := s.actionPoints - 1, labProcessing := true }
  | .labComplete =>
      if s.labProcessing then
        let clue := c.evidence.labClue
        { s with evidenceFound :=
                   if clue ∈ s.evidenceFound then s.evidenceFound
                   else s.evidenceFound ++ [clue]
                 labProcessing := false
                 labReady := false }
      else s
  | .accuse _ _ => s

/-- The observable verdict an operation produces: only accuse yields one,
and handleAccusation reads no session field, so the session argument is
unused exactly as in the source. -/
def stepOut (c : Case) (_s : Session) : Op → Option AccusationResult
  | .accuse sid motiveRaw => handleAccusation c sid motiveRaw
  | _ => none

/-- Running a whole play of one case: startCase then a list of operations. -/
def runOps (c : Case) (ops : List Op) : Session :=
  ops.foldl (step c) (startCase c)

/-- Well-formed case data: each evidence pool is duplicate-free, as the
data model declares them to be sets. -/
def EvidenceWF (c : Case) : Prop :=
  c.evidence.initial.Nodup ∧ c.evidence.bodySearch.Nodup ∧ c.evidence.roomSearch.Nodup

/-- A small concrete case used by the witnesses and counterexamples. -/
def demoSuspect : Suspect :=
  ⟨"s1", "at home", "greed", "cousin", "saw nothing", some ["hmm", "no comment"]⟩

/-- A suspect whose generic filler list is absent (undefined in the source). -/
def quietSuspect : Suspect :=
  ⟨"s2", "at work", "none", "stranger", "nothing", none⟩

/-- Concrete demo case: suspect s1 is the killer; keyword list is lower-case. -/
def demoCase : Case :=
  ⟨"c1", [demoSuspect, quietSuspect],
   ⟨["letter"], ["watch", "hair"], ["glass"], "poison"⟩,
   "s1", ["money", "debt", "revenge"]⟩

/-- Concrete case whose single motive keyword contains an upper-case
letter, exposing the one-sided lowering of handleAccusation. -/
def mixedCaseKeywordCase : Case :=
  ⟨"c2", [demoSuspect],
   ⟨["letter"], ["watch"], ["glass"], "poison"⟩,
   "s1", ["Money"]⟩

/-- A session with the action budget exhausted, used by witnesses. -/
def apZeroSession : Session := { startCase demoCase with actionPoints := 0 }

/-- A session with a lab run in flight, used by witnesses. -/
def labProcSession : Session :=
  { startCase demoCase with actionPoints := 19, labProcessing := true }

/-- The thresholds of the fixed ascending RANKS table (src/app.js
lines 985-992); the titles are irrelevant to the rank computation. -/
def RANKS : List Nat := [0, 100, 300, 600, 1000, 2000]

/-- The rank scan of PlayerStats.addXP: walk the RANKS table in order and
keep the last index whose threshold the xp reaches. -/
def computeRankIndex (xp : Nat) : Nat :=
  RANKS.enum.foldl (fun acc p => if p.2 ≤ xp then p.1 else acc) 0

/-- One solved-case record as built by GameDatabase.addSolvedCase.
caseId is none when both id fields of the input are absent (the record
then stores the JavaScript undefined). -/
structure SolvedCase where
  caseId : Option String
  title : String
  solvedAt : Int
  accuracy : Int
  timeTaken : Int
  score : Int
  deriving Repr, DecidableEq

/-- The case-result payload handed to addSolvedCase; every field may be
absent. -/
structure CaseResultData where
  id : Option String
  caseId : Option String
  title : Option String
  accuracy : Option Int
  timeTaken : Option Int
  score : Option Int
  deriving Repr, DecidableEq

/-- JavaScript a or-else b for string-valued properties: b is taken
whenever a is absent or empty (falsy). -/
def jsStrOr (v fallback : Option String) : Option String :=
  match v with
  | some s => if s = "" then fallback else some s
  | none => fallback

/-- JavaScript v or-else d for a string property with a default. -/
def jsStrOrD (v : Option String) (d : String) : String :=
  match v with
  | some s => if s = "" then d else s
  | none => d

/-- JavaScript v or-else d for a number property; 0 is falsy and also
falls back to the default. -/
def jsIntOrD (v : Option Int) (d : Int) : Int :=
  match v with
  | some n => if n = 0 then d else n
  | none => d

/-- The solvedCase object literal of addSolvedCase (src/app.js 825-832). -/
def mkSolvedCase (cd : CaseResultData) (now : Int) : SolvedCase :=
  { caseId := jsStrOr cd.id cd.caseId
    title := jsStrOrD cd.title "Unknown Case"
    solvedAt := now
    accuracy := jsIntOrD cd.accuracy 100
    timeTaken := jsIntOrD cd.timeTaken 0
    score := jsIntOrD cd.score 0 }

/-- A stored user profile, restricted to the fields the verified
operations read or write. -/
structure UserRec where
  id : String
  name : String
  xp : Nat
  rankIndex : Nat
  solvedCases : List SolvedCase
  createdAt : Int
  lastLogin : Int
  loginCount : Nat
  deriving Repr, DecidableEq

/-- The typed persistence document: the users map (as an association list
in insertion order, the enumeration order of a JavaScript object), the
lastUser reference and the aggregate statistics the claims mention.  The
version and timestamp stamping of saves is modelled at the raw document
level below. -/
structure DBDoc where
  users : List (String × UserRec)
  lastUser : Option String
  totalUsers : Nat
  totalCasesSolved : Nat
  deriving Repr, DecidableEq

/-- Property read db.users[id]. -/
def lookupUser (db : DBDoc) (id : String) : Option UserRec :=
  (db.users.find? (fun p => p.1 = id)).map (fun p => p.2)

/-- JavaScript property write obj[key] = v on an association list: update
in place when present, append otherwise (object insertion-order
semantics). -/
def setPair {β : Type} (l : List (String × β)) (key : String) (v : β) :
    List (String × β) :=
  if (l.find? (fun p => p.1 = key)).isSome then
    l.map (fun p => if p.1 = key then (key, v) else p)
  else l ++ [(key, v)]

/-- Property write users[id] = u. -/
def setUser (users : List (String × UserRec)) (id : String) (u : UserRec) :
    List (String × UserRec) :=
  setPair users id u

/-- A stored demo user at zero xp, used by witnesses. -/
def demoUser : UserRec :=
  { id := "u1", name := "U", xp := 0, rankIndex := 0, solvedCases := []
    createdAt := 3, lastLogin := 3, loginCount := 1 }

/-- A demo persistence document holding demoUser. -/
def demoDb : DBDoc := ⟨[("u1", demoUser)], some "u1", 1, 0⟩

/-- The empty persistence document, used by the identity scenario. -/
def emptyDb : DBDoc := ⟨[], none, 0, 0⟩

/-- A case-result payload with every field absent, used by witnesses. -/
def noCaseData : CaseResultData := ⟨none, none, none, none, none, none⟩

/-- The characters the id regex keeps: [a-z0-9_]. -/
def isIdChar (c : Char) : Bool :=
  ('a' ≤ c ∧ c ≤ 'z') ∨ ('0' ≤ c ∧ c ≤ '9') ∨ c = '_'

/-- Collapse every run of consecutive underscores to one, the effect of
replacing the pattern of two-or-more underscores globally; the flag records
whether the previous kept character was an underscore. -/
def collapseUnd : Bool → List Char → List Char
  | _, [] => []
  | prevU, c :: cs =>
      if c = '_' then
        if prevU then collapseUnd true cs else '_' :: collapseUnd true cs
      else c :: collapseUnd false cs

/-- GameDatabase._generateUserId, src/app.js 849-851: lower-case, trim,
replace every character outside [a-z0-9_] with an underscore, collapse
underscore runs. -/
def generateUserId (name : String) : String :=
  let lowered := jsTrim (jsToLower name)
  let replaced := lowered.data.map (fun c => if isIdChar c then c else '_')
  ⟨collapseUnd false replaced⟩

/-- GameDatabase.createUser, src/app.js 658-699, without the optional
initialData argument (its callers in the login flow pass none).  An
existing derived id throws, is caught, and leaves the store untouched. -/
def createUser (db : DBDoc) (name : String) (now : Int) : Option UserRec × DBDoc :=
  let id := generateUserId name
  match lookupUser db id with
  | some _ => (none, db)
  | none =>
      let user : UserRec :=
        { id := id, name := jsTrim name, xp := 0, rankIndex := 0
          solvedCases := [], createdAt := now, lastLogin := now, loginCount := 0 }
      let users' := setUser db.users id user
      (some user, { db with users := users', totalUsers := users'.length })

/-- GameDatabase.updateUser, src/app.js 715-742: re-reads the stored
document, merges the update fields onto the stored record while refusing
to overwrite id and createdAt (and the never-modelled apiKey), and saves. -/
def updateUser (db : DBDoc) (userId : String) (updates : UserRec) : Option UserRec × DBDoc :=
  match lookupUser db userId with
  | none => (none, db)
  | some stored =>
      let merged : UserRec := { updates with id := stored.id, createdAt := stored.createdAt }
      (some merged, { db with users := setUser db.users userId merged })

/-- GameDatabase.addSolvedCase, src/app.js 821-846.  The source increments
statistics.totalCasesSolved on a freshly re-read copy of the document
(a second getDB) that is never saved; the subsequent updateUser call
re-reads and persists the document without that increment, so only the
appended solvedCases entry survives. -/
def addSolvedCase (db : DBDoc) (userId : String) (cd : CaseResultData) (now : Int) :
    Bool × DBDoc :=
  match lookupUser db userId with
  | none => (false, db)
  | some user =>
      let solved := mkSolvedCase cd now
      let user' := { user with solvedCases := user.solvedCases ++ [solved] }
      let _ := db.totalCasesSolved + 1
      match updateUser db userId user' with
      | (some _, db') => (true, db')
      | (none, db') => (false, db')

/-- GameDatabase.login, src/app.js 778-808.  For an existing derived id the
in-place mutation of the fetched record lands in the copy that login then
saves.  For a new name, createUser writes its own copy of the document, but
login then saves its stale pre-create copy, so the persisted document keeps
lastUser = id while the new user record itself is absent from it. -/
def login (db : DBDoc) (name : String) (now : Int) : Option UserRec × DBDoc :=
  let id := generateUserId name
  match lookupUser db id with
  | some u =>
      let u' := { u with lastLogin := now, loginCount := u.loginCount + 1 }
      (some u', { db with users := setUser db.users id u', lastUser := some id })
  | none =>
      match createUser db name now with
      | (none, _) => (none, db)
      | (some u, _) =>
          let u' := { u with lastLogin := now, loginCount := u.loginCount + 1 }
          (some u', { db with lastUser := some id })

/-- The logged-in user a fresh-name login of Jane Doe! returns, while the
stale save of login drops the created record from the store. -/
def ghostUser : UserRec :=
  { id := "jane_doe_", name := "Jane Doe!", xp := 0, rankIndex := 0, solvedCases := []
    createdAt := 5, lastLogin := 5, loginCount := 1 }

/-- The store that fresh-name login leaves behind: lastUser references
jane_doe_ but the user record itself is absent. -/
def ghostDb : DBDoc := (login emptyDb "Jane Doe!" 5).2

/-- PlayerStats.addXP, src/app.js 1001-1025, for a logged-in user: add the
amount, rescan the RANKS table, store the recomputed index, persist through
updateUser, and report whether the promotion modal fired (it fires exactly
when the recomputed index exceeds the previous one). -/
def addXP (db : DBDoc) (u : UserRec) (amount : Nat) : UserRec × DBDoc × Bool :=
  let newXp := u.xp + amount
  let newIndex := computeRankIndex newXp
  let u' := { u with xp := newXp, rankIndex := newIndex }
  let saved := updateUser db u.id u'
  (u', saved.2, decide (u.rankIndex < newIndex))

/-- Parsed JSON values, the raw level at which importData operates. -/
inductive JVal where
  | jnull : JVal
  | jbool : Bool → JVal
  | jnum : Int → JVal
  | jstr : String → JVal
  | jarr : List JVal → JVal
  | jobj : List (String × JVal) → JVal
  deriving Repr

/-- JavaScript truthiness of a parsed JSON value. -/
def jsTruthy : JVal → Bool
  | .jnull => false
  | .jbool b => b
  | .jnum n => decide (n ≠ 0)
  | .jstr s => decide (s ≠ "")
  | .jarr _ => true
  | .jobj _ => true

/-- JavaScript typeof v === 'object' for a parsed JSON value. -/
def isObjectType : JVal → Bool
  | .jnull => true
  | .jarr _ => true
  | .jobj _ => true
  | _ => false

/-- Does the object field list carry the key. -/
def hasKey (fields : List (String × JVal)) (k : String) : Bool :=
  (fields.find? (fun p => p.1 = k)).isSome

/-- Property write on an object field list. -/
def setField (fields : List (String × JVal)) (key : String) (v : JVal) :
    List (String × JVal) :=
  setPair fields key v

/-- GameDatabase._save, src/app.js 639-656, at the raw level: reject a
falsy or non-object value, stamp version and lastUpdated, and store the
serialization.  Named properties stamped onto an array are dropped by
JSON.stringify, so an array is stored as-is. -/
def saveDoc (stored : Option JVal) (data : JVal) (now : Int) : Bool × Option JVal :=
  if ¬ jsTruthy data ∨ ¬ isObjectType data then (false, stored)
  else
    match data with
    | .jobj fields =>
        (true, some (.jobj (setField (setField fields "version" (.jnum 2))
                                     "lastUpdated" (.jnum now))))
    | .jarr elems => (true, some (.jarr elems))
    | _ => (false, stored)

/-- GameDatabase.importData, src/app.js 918-929.  The parsed argument is
the result of JSON.parse on the import text; none models a parse error
(the thrown exception is caught and the store is left unchanged).  A parsed
value that is truthy and of object type is handed to _save wholesale; any
other value is rejected. -/
def importData (stored : Option JVal) (parsed : Option JVal) (now : Int) :
    Bool × Option JVal :=
  match parsed with
  | none => (false, stored)
  | some data =>
      if jsTruthy data ∧ isObjectType data then saveDoc stored data now
      else (false, stored)

/-- The structural validity predicate of claim C9: an object carrying the
five keys of the persistence document shape. -/
def isValidShape : JVal → Bool
  | .jobj fields =>
      hasKey fields "version" && hasKey fields "users" && hasKey fields "lastUser" &&
      hasKey fields "settings" && hasKey fields "statistics"
  | _ => false

/-- A well-formed concrete import document of the persistence shape. -/
def validDoc : JVal :=
  .jobj [("version", .jnum 2), ("users", .jobj []), ("lastUser", .jnull),
         ("settings", .jobj []), ("statistics", .jobj [])]

/-!  Supporting lemmas. -/

theorem jsToLower_eq_empty_iff (s : String) : jsToLower s = "" ↔ s = "" := by
  cases s with
  | mk data => simp [jsToLower, String.ext_iff]

/-!  Claim C1. -/

/-- Claim C1, counterexample: with motive keyword Money (capital M) and
the accusation text Money, the lowered motive text no longer contains the
keyword verbatim, so the source counts 0 hits where the case-insensitive
count of the claim is 1, and the accusation fails although the claim
predicts success. -/
theorem C1_counterexample :
    (handleAccusation mixedCaseKeywordCase "s1" "Money").map AccusationResult.keywordHits = some 0 ∧
    claimKeywordHits mixedCaseKeywordCase "Money" = 1 ∧
    (handleAccusation mixedCaseKeywordCase "s1" "Money").map AccusationResult.keywordHits ≠
      some (claimKeywordHits mixedCaseKeywordCase "Money") ∧
    (handleAccusation mixedCaseKeywordCase "s1" "Money").map AccusationResult.success = some false := by
  decide

/-- Claim C1, amended: for non-empty suspect id and non-empty trimmed
motive text the judgement is a pure function of the inputs; correctSuspect
is exact id equality with the killer, keywordHits counts the keywords that
occur verbatim as substrings of the lower-cased trimmed motive text (the
keyword itself is not lowered), requiredHits is the ceiling of half the
keyword count, correctMotive compares the two, success is the
conjunction. -/
theorem C1_theorem (c : Case) (sid raw : String)
    (h1 : sid ≠ "") (h2 : jsTrim raw ≠ "") :
    ∃ r, handleAccusation c sid raw = some r ∧
      (r.correctSuspect = true ↔ sid = c.killerId) ∧
      r.keywordHits = c.motiveKeywords.countP (fun k => strIncludes (jsToLower (jsTrim raw)) k) ∧
      r.requiredHits = (c.motiveKeywords.length + 1) / 2 ∧
      (r.correctMotive = true ↔ r.requiredHits ≤ r.keywordHits) ∧
      (r.success = true ↔ (r.correctSuspect = true ∧ r.correctMotive = true)) := by
  have hne : ¬(sid = "" ∨ jsToLower (jsTrim raw) = "") := by
    simp [jsToLower_eq_empty_iff, h1, h2]
  have hmain : handleAccusation c sid raw = some
      ⟨decide (sid = c.killerId),
       (c.motiveKeywords.filter (fun k => strIncludes (jsToLower (jsTrim raw)) k)).length,
       (c.motiveKeywords.length + 1) / 2,
       decide ((c.motiveKeywords.length + 1) / 2 ≤
         (c.motiveKeywords.filter (fun k => strIncludes (jsToLower (jsTrim raw)) k)).length),
       decide (sid = c.killerId) &&
         decide ((c.motiveKeywords.length + 1) / 2 ≤
           (c.motiveKeywords.filter (fun k => strIncludes (jsToLower (jsTrim raw)) k)).length)⟩ := by
    simp only [handleAccusation]
    rw [if_neg hne]
  refine ⟨_, hmain, ?_, ?_, rfl, ?_, ?_⟩
  · simp
  · simp [List.countP_eq_length_filter]
  · simp
  · simp [Bool.and_eq_true]

/-- Witness for C1_theorem at the demo case and a concrete motive text. -/
theorem C1_witness :
    ∃ r, handleAccusation demoCase "s1" "It was Money and debt" = some r ∧
      (r.correctSuspect = true ↔ "s1" = demoCase.killerId) ∧
      r.keywordHits = demoCase.motiveKeywords.countP
        (fun k => strIncludes (jsToLower (jsTrim "It was Money and debt")) k) ∧
      r.requiredHits = (demoCase.motiveKeywords.length + 1) / 2 ∧
      (r.correctMotive = true ↔ r.requiredHits ≤ r.keywordHits) ∧
      (r.success = true ↔ (r.correctSuspect = true ∧ r.correctMotive = true)) :=
  C1_theorem demoCase "s1" "It was Money and debt" (by decide) (by decide)

/-!  Session invariant helpers and claims C2 - C5. -/


theorem step_evidence_append (c : Case) (s : Session) (op : Op) :
    ∃ t, (step c s op).evidenceFound = s.evidenceFound ++ t := by
  cases op with
  | selectSuspect sid => exact ⟨[], by simp [step]⟩
  | sendMessage text =>
      simp only [step]
      split
      · exact ⟨[], by simp⟩
      split
      · exact ⟨[], by simp⟩
      split
      · exact ⟨[], by simp⟩
      · exact ⟨[], by simp⟩
  | search kind =>
      simp only [step]
      split
      · exact ⟨[], by simp⟩
      split
      · exact ⟨[], by simp⟩
      · exact ⟨_, rfl⟩
  | sendToLab =>
      simp only [step]
      split
      · exact ⟨[], by simp⟩
      · exact ⟨[], by simp⟩
  | labComplete =>
      simp only [step]
      split
      · split
        · exact ⟨[], by simp⟩
        · exact ⟨[c.evidence.labClue], rfl⟩
      · exact ⟨[], by simp⟩
  | accuse sid m => exact ⟨[], by simp [step]⟩

theorem step_nodup (c : Case) (hwf : EvidenceWF c) (s : Session) (op : Op)
    (h : s.evidenceFound.Nodup) : (step c s op).evidenceFound.Nodup := by
  cases op with
  | selectSuspect sid => simpa [step] using h
  | sendMessage text =>
      simp only [step]
      split
      · exact h
      split
      · exact h
      split
      · exact h
      · exact h
  | search kind =>
      simp only [step]
      split
      · exact h
      split
      · exact h
      · rw [List.nodup_append]
        refine ⟨h, ?_, ?_⟩
        · apply List.Nodup.filter
          cases kind with
          | body => exact hwf.2.1
          | room => exact hwf.2.2
        · intro a ha hfa
          have := List.of_mem_filter hfa
          simp only [decide_eq_true_eq] at this
          exact this ha
  | sendToLab =>
      simp only [step]
      split
      · exact h
      · exact h
  | labComplete =>
      simp only [step]
      split
      · split
        · exact h
        · rename_i hmem
          rw [List.nodup_append]
          exact ⟨h, List.nodup_singleton _, by
            intro a ha hsing
            simp only [List.mem_singleton] at hsing
            subst hsing
            exact hmem ha⟩
      · exact h
  | accuse sid m => simpa [step] using h

theorem foldl_nodup (c : Case) (hwf : EvidenceWF c) (ops : List Op) :
    ∀ s : Session, s.evidenceFound.Nodup → ((ops.foldl (step c) s).evidenceFound).Nodup := by
  induction ops with
  | nil => intro s h; exact h
  | cons op rest ih =>
      intro s h
      exact ih _ (step_nodup c hwf s op h)

theorem runOps_nodup (c : Case) (hwf : EvidenceWF c) (ops : List Op) :
    (runOps c ops).evidenceFound.Nodup :=
  foldl_nodup c hwf ops (startCase c) hwf.1

theorem step_ap_nonneg (c : Case) (s : Session) (op : Op)
    (h : 0 ≤ s.actionPoints) : 0 ≤ (step c s op).actionPoints := by
  cases op with
  | selectSuspect sid => simpa [step] using h
  | sendMessage text =>
      simp only [step]
      split
      · exact h
      split
      · exact h
      rename_i hguard _
      have : ¬ s.actionPoints ≤ 0 := by
        intro hle
        exact hguard (Or.inr hle)
      split <;> simp <;> omega
  | search kind =>
      simp only [step]
      split
      · exact h
      split
      · exact h
      · rename_i hgt _
        simp only []
        omega
  | sendToLab =>
      simp only [step]
      split
      · exact h
      · rename_i hguard
        have : ¬ s.actionPoints ≤ 0 := fun hle => hguard (Or.inl hle)
        simp only []
        omega
  | labComplete =>
      simp only [step]
      split
      · exact h
      · exact h
  | accuse sid m => simpa [step] using h

theorem runOps_ap_nonneg (c : Case) (ops : List Op) :
    0 ≤ (runOps c ops).actionPoints := by
  have key : ∀ s : Session, 0 ≤ s.actionPoints → 0 ≤ ((ops.foldl (step c) s).actionPoints) := by
    induction ops with
    | nil => intro s h; exact h
    | cons op rest ih => intro s h; exact ih _ (step_ap_nonneg c s op h)
  exact key (startCase c) (by simp [startCase])

theorem handleAccusation_isSome (c : Case) (sid raw : String)
    (h1 : sid ≠ "") (h2 : jsTrim raw ≠ "") : (handleAccusation c sid raw).isSome := by
  have hne : ¬(sid = "" ∨ jsToLower (jsTrim raw) = "") := by
    simp [jsToLower_eq_empty_iff, h1, h2]
  simp only [handleAccusation]
  rw [if_neg hne]
  rfl

/-- Claim C2: across every sequence of session operations the evidenceFound
collection only grows (each operation's result contains every element of
the previous state), it is seeded from the case's initial evidence list,
and in every reachable state it is duplicate-free, given that the case's
evidence pools are the duplicate-free sets of the data model. -/
theorem C2_theorem (c : Case) (hwf : EvidenceWF c) :
    (∀ ops op x, x ∈ (runOps c ops).evidenceFound → x ∈ (runOps c (ops ++ [op])).evidenceFound) ∧
    (runOps c []).evidenceFound = c.evidence.initial ∧
    (∀ ops, (runOps c ops).evidenceFound.Nodup) := by
  refine ⟨?_, rfl, runOps_nodup c hwf⟩
  intro ops op x hx
  have hrun : runOps c (ops ++ [op]) = step c (runOps c ops) op := by
    simp [runOps, List.foldl_append]
  rw [hrun]
  obtain ⟨t, ht⟩ := step_evidence_append c (runOps c ops) op
  rw [ht]
  exact List.mem_append_left t hx

/-- Witness for C2_theorem at the demo case with a concrete play. -/
theorem C2_witness :
    (runOps demoCase [Op.search SearchKind.body, Op.sendToLab, Op.labComplete]).evidenceFound.Nodup :=
  (C2_theorem demoCase ⟨by decide, by decide, by decide⟩).2.2 [Op.search SearchKind.body, Op.sendToLab, Op.labComplete]

/-- Claim C3: actionPoints never becomes negative along any play; once it
is 0, sendMessage, search of both kinds and sendToLab return the state
unchanged; accuse never mutates the session and its verdict is produced
normally (non-none on valid inputs) at 0 action points. -/
theorem C3_theorem (c : Case) :
    (∀ ops, 0 ≤ (runOps c ops).actionPoints) ∧
    (∀ s : Session, s.actionPoints = 0 →
       (∀ text, step c s (.sendMessage text) = s) ∧
       (∀ kind, step c s (.search kind) = s) ∧
       step c s .sendToLab = s) ∧
    (∀ s sid m, step c s (.accuse sid m) = s ∧
       stepOut c s (.accuse sid m) = handleAccusation c sid m) ∧
    (∀ s : Session, ∀ sid m, s.actionPoints = 0 → sid ≠ "" → jsTrim m ≠ "" →
       (stepOut c s (.accuse sid m)).isSome) := by
  refine ⟨runOps_ap_nonneg c, ?_, ?_, ?_⟩
  · intro s hap
    refine ⟨?_, ?_, ?_⟩
    · intro text
      simp only [step]
      rw [if_pos (Or.inr (by omega))]
    · intro kind
      simp only [step]
      rw [if_pos (by omega)]
    · simp only [step]
      rw [if_pos (Or.inl (by omega))]
  · intro s sid m
    exact ⟨rfl, rfl⟩
  · intro s sid m _ h1 h2
    exact handleAccusation_isSome c sid m h1 h2

/-- Witness for C3_theorem at a concrete zero-budget session. -/
theorem C3_witness :
    step demoCase apZeroSession (Op.search SearchKind.body) = apZeroSession ∧
    step demoCase apZeroSession Op.sendToLab = apZeroSession ∧
    (stepOut demoCase apZeroSession (Op.accuse "s1" "money and debt")).isSome := by
  refine ⟨((C3_theorem demoCase).2.1 apZeroSession rfl).2.1 SearchKind.body,
          ((C3_theorem demoCase).2.1 apZeroSession rfl).2.2,
          (C3_theorem demoCase).2.2.2 apZeroSession "s1" "money and debt" rfl (by decide) (by decide)⟩

theorem search_noop (c : Case) (s' : Session) (kind : SearchKind)
    (hfil : (searchList c kind).filter (fun item => decide (item ∉ s'.evidenceFound)) = []) :
    step c s' (.search kind) = s' := by
  simp only [step]
  split
  · rfl
  · rw [if_pos (by rw [hfil]; rfl)]

/-- Claim C4: with actionPoints positive, search computes the difference
between the kind's evidence list and evidenceFound; an empty difference
changes nothing, otherwise exactly one point is consumed and exactly the
new items are appended, membership afterwards is the union, and an
immediately repeated search changes nothing. -/
theorem C4_theorem (c : Case) (s : Session) (kind : SearchKind)
    (h : 0 < s.actionPoints) :
    ((searchList c kind).filter (fun item => decide (item ∉ s.evidenceFound)) = [] →
       step c s (.search kind) = s) ∧
    ((searchList c kind).filter (fun item => decide (item ∉ s.evidenceFound)) ≠ [] →
       step c s (.search kind) =
         { s with actionPoints := s.actionPoints - 1
                  evidenceFound := s.evidenceFound ++
                    (searchList c kind).filter (fun item => decide (item ∉ s.evidenceFound)) }) ∧
    (∀ x, x ∈ (step c s (.search kind)).evidenceFound ↔
       (x ∈ s.evidenceFound ∨ x ∈ searchList c kind)) ∧
    step c (step c s (.search kind)) (.search kind) = step c s (.search kind) := by
  have hgt : ¬ s.actionPoints ≤ 0 := by omega
  have hstep : step c s (.search kind) =
      (if ((searchList c kind).filter (fun item => decide (item ∉ s.evidenceFound))).isEmpty then s
       else { s with actionPoints := s.actionPoints - 1
                     evidenceFound := s.evidenceFound ++
                       (searchList c kind).filter (fun item => decide (item ∉ s.evidenceFound)) }) := by
    simp only [step]
    rw [if_neg hgt]
  have hmem : ∀ x, x ∈ (step c s (.search kind)).evidenceFound ↔
      (x ∈ s.evidenceFound ∨ x ∈ searchList c kind) := by
    intro x
    rw [hstep]
    split
    · rename_i hemp
      rw [List.isEmpty_iff] at hemp
      constructor
      · exact Or.inl
      · rintro (hx | hx)
        · exact hx
        · by_contra hnot
          have : x ∈ (searchList c kind).filter (fun item => decide (item ∉ s.evidenceFound)) :=
            List.mem_filter.mpr ⟨hx, by simpa using hnot⟩
          rw [hemp] at this
          exact absurd this (List.not_mem_nil x)
    · simp only [List.mem_append, List.mem_filter, decide_eq_true_eq]
      constructor
      · rintro (hx | ⟨hx, _⟩)
        · exact Or.inl hx
        · exact Or.inr hx
      · rintro (hx | hx)
        · exact Or.inl hx
        · by_cases hin : x ∈ s.evidenceFound
          · exact Or.inl hin
          · exact Or.inr ⟨hx, hin⟩
  refine ⟨search_noop c s kind, ?_, hmem, ?_⟩
  · intro hne
    rw [hstep]
    have : ¬ ((searchList c kind).filter (fun item => decide (item ∉ s.evidenceFound))).isEmpty := by
      simpa [List.isEmpty_iff] using hne
    rw [if_neg this]
  · apply search_noop
    rw [List.filter_eq_nil_iff]
    intro a ha
    simp only [decide_eq_true_eq, Decidable.not_not]
    exact (hmem a).mpr (Or.inr ha)

/-- Witness for C4_theorem at the freshly started demo case. -/
theorem C4_witness :
    (∀ x, x ∈ (step demoCase (startCase demoCase) (.search SearchKind.body)).evidenceFound ↔
       (x ∈ (startCase demoCase).evidenceFound ∨ x ∈ searchList demoCase SearchKind.body)) ∧
    step demoCase (step demoCase (startCase demoCase) (.search SearchKind.body)) (.search SearchKind.body) =
      step demoCase (startCase demoCase) (.search SearchKind.body) :=
  ⟨(C4_theorem demoCase (startCase demoCase) SearchKind.body (by decide)).2.2.1,
   (C4_theorem demoCase (startCase demoCase) SearchKind.body (by decide)).2.2.2⟩

/-- Claim C5: the initiating sendToLab call (points available, lab ready,
not processing) costs exactly one point and sets labProcessing; calls
while processing or after labReady has been cleared are rejected with no
state change; completion adds the labClue, clears labProcessing and
labReady, and the labClue occurs at most once in evidenceFound in every
reachable state of a well-formed case. -/
theorem C5_theorem (c : Case) :
    (∀ s : Session, 0 < s.actionPoints → s.labReady = true → s.labProcessing = false →
       step c s .sendToLab =
         { s with actionPoints := s.actionPoints - 1, labProcessing := true }) ∧
    (∀ s : Session, s.labProcessing = true ∨ s.labReady = false → step c s .sendToLab = s) ∧
    (∀ s : Session, s.labProcessing = true →
       c.evidence.labClue ∈ (step c s .labComplete).evidenceFound ∧
       (step c s .labComplete).labProcessing = false ∧
       (step c s .labComplete).labReady = false ∧
       (step c s .labComplete).actionPoints = s.actionPoints) ∧
    (EvidenceWF c → ∀ ops, (runOps c ops).evidenceFound.count c.evidence.labClue ≤ 1) := by
  refine ⟨?_, ?_, ?_, ?_⟩
  · intro s hap hready hproc
    simp only [step]
    rw [if_neg (by simp [hready, hproc]; omega)]
  · intro s hrej
    simp only [step]
    rcases hrej with hrej | hrej
    · rw [if_pos (Or.inr (Or.inr hrej))]
    · rw [if_pos (Or.inr (Or.inl (by simp [hrej])))]
  · intro s hproc
    simp only [step]
    rw [if_pos hproc]
    refine ⟨?_, rfl, rfl, rfl⟩
    split
    · rename_i hmem
      exact hmem
    · simp
  · intro hwf ops
    exact (List.nodup_iff_count_le_one.mp (runOps_nodup c hwf ops)) c.evidence.labClue

/-- Witness for C5_theorem at concrete lab sessions of the demo case. -/
theorem C5_witness :
    step demoCase (startCase demoCase) .sendToLab =
      { startCase demoCase with actionPoints := 19, labProcessing := true } ∧
    step demoCase labProcSession .sendToLab = labProcSession ∧
    demoCase.evidence.labClue ∈ (step demoCase labProcSession .labComplete).evidenceFound ∧
    (runOps demoCase [Op.sendToLab, Op.labComplete, Op.sendToLab]).evidenceFound.count
      demoCase.evidence.labClue ≤ 1 :=
  ⟨(C5_theorem demoCase).1 (startCase demoCase) (by decide) rfl rfl,
   (C5_theorem demoCase).2.1 labProcSession (Or.inl rfl),
   ((C5_theorem demoCase).2.2.1 labProcSession rfl).1,
   (C5_theorem demoCase).2.2.2 ⟨by decide, by decide, by decide⟩
     [Op.sendToLab, Op.labComplete, Op.sendToLab]⟩

/-!  Claim C6. -/


/-- Claim C6, counterexample: for a suspect with no generic lines the
fallback reply is the fixed nothing-to-say string, but the per-suspect
cursor is still advanced from 0 to 1, contradicting the claim that no
cursor is advanced in that case. -/
theorem C6_counterexample :
    (getScriptedResponse (fun _ => 0) quietSuspect "hello").1 = some "I have nothing to say." ∧
    (getScriptedResponse (fun _ => 0) quietSuspect "hello").2 quietSuspect.id = 1 ∧
    (getScriptedResponse (fun _ => 0) quietSuspect "hello").2 quietSuspect.id ≠ 0 := by
  refine ⟨by decide, by decide, by decide⟩

/-- Claim C6, amended: the scripted responder lower-cases the question and
answers in the fixed priority order alibi / motive / relationship /
evidence keywords; otherwise it serves the generic line at the cursor
modulo the list length and always advances that suspect's cursor by one,
also when the generic list is absent, in which case the reply is the fixed
nothing-to-say string. -/
theorem C6_theorem (resp : String → Nat) (sp : Suspect) (text : String) :
    ((strIncludes (jsToLower text) "alibi" || strIncludes (jsToLower text) "where" ||
        strIncludes (jsToLower text) "time") = true →
       getScriptedResponse resp sp text = (some sp.alibi, resp)) ∧
    ((strIncludes (jsToLower text) "alibi" || strIncludes (jsToLower text) "where" ||
        strIncludes (jsToLower text) "time") = false →
     (strIncludes (jsToLower text) "motive" || strIncludes (jsToLower text) "why") = true →
       getScriptedResponse resp sp text = (some sp.motive, resp)) ∧
    ((strIncludes (jsToLower text) "alibi" || strIncludes (jsToLower text) "where" ||
        strIncludes (jsToLower text) "time") = false →
     (strIncludes (jsToLower text) "motive" || strIncludes (jsToLower text) "why") = false →
     (strIncludes (jsToLower text) "relationship" || strIncludes (jsToLower text) "victim") = true →
       getScriptedResponse resp sp text = (some sp.relationship, resp)) ∧
    ((strIncludes (jsToLower text) "alibi" || strIncludes (jsToLower text) "where" ||
        strIncludes (jsToLower text) "time") = false →
     (strIncludes (jsToLower text) "motive" || strIncludes (jsToLower text) "why") = false →
     (strIncludes (jsToLower text) "relationship" || strIncludes (jsToLower text) "victim") = false →
     (strIncludes (jsToLower text) "evidence" || strIncludes (jsToLower text) "clue") = true →
       getScriptedResponse resp sp text = (some sp.evidence, resp)) ∧
    ((strIncludes (jsToLower text) "alibi" || strIncludes (jsToLower text) "where" ||
        strIncludes (jsToLower text) "time") = false →
     (strIncludes (jsToLower text) "motive" || strIncludes (jsToLower text) "why") = false →
     (strIncludes (jsToLower text) "relationship" || strIncludes (jsToLower text) "victim") = false →
     (strIncludes (jsToLower text) "evidence" || strIncludes (jsToLower text) "clue") = false →
       ((getScriptedResponse resp sp text).2 sp.id = resp sp.id + 1 ∧
        (∀ k, k ≠ sp.id → (getScriptedResponse resp sp text).2 k = resp k) ∧
        (sp.generic = none →
           (getScriptedResponse resp sp text).1 = some "I have nothing to say.") ∧
        (∀ l, sp.generic = some l → l ≠ [] →
           (getScriptedResponse resp sp text).1 = l.get? (resp sp.id % l.length) ∧
           ((getScriptedResponse resp sp text).1).isSome))) := by
  refine ⟨?_, ?_, ?_, ?_, ?_⟩
  · intro h1
    simp only [getScriptedResponse, h1]
    simp
  · intro h1 h2
    simp only [getScriptedResponse, h1, h2]
    simp
  · intro h1 h2 h3
    simp only [getScriptedResponse, h1, h2, h3]
    simp
  · intro h1 h2 h3 h4
    simp only [getScriptedResponse, h1, h2, h3, h4]
    simp
  · intro h1 h2 h3 h4
    have hfall : getScriptedResponse resp sp text =
        (match sp.generic with
          | some l => l.get? (resp sp.id % l.length)
          | none => some "I have nothing to say.",
         fun k => if k = sp.id then resp sp.id + 1 else resp k) := by
      simp only [getScriptedResponse, h1, h2, h3, h4]
      simp
    refine ⟨?_, ?_, ?_, ?_⟩
    · rw [hfall]
      simp
    · intro k hk
      rw [hfall]
      simp [hk]
    · intro hg
      rw [hfall, hg]
    · intro l hg hne
      rw [hfall, hg]
      refine ⟨rfl, ?_⟩
      have hlt : resp sp.id % l.length < l.length :=
        Nat.mod_lt _ (List.length_pos.mpr hne)
      show (l.get? (resp sp.id % l.length)).isSome = true
      rw [List.get?_eq_getElem?, List.getElem?_eq_getElem hlt]
      rfl

/-- Witness for C6_theorem at the demo suspect with concrete questions. -/
theorem C6_witness :
    getScriptedResponse (fun _ => 0) demoSuspect "Where were you at the time?" =
      (some demoSuspect.alibi, fun _ => 0) ∧
    (getScriptedResponse (fun _ => 0) demoSuspect "I am watching you").2 demoSuspect.id = 1 :=
  ⟨(C6_theorem (fun _ => 0) demoSuspect "Where were you at the time?").1 (by decide),
   ((C6_theorem (fun _ => 0) demoSuspect "I am watching you").2.2.2.2
      (by decide) (by decide) (by decide) (by decide)).1⟩

/-!  Claim C7 helpers and claim. -/


theorem computeRankIndex_eq (xp : Nat) :
    computeRankIndex xp =
      if 2000 ≤ xp then 5 else if 1000 ≤ xp then 4 else if 600 ≤ xp then 3
      else if 300 ≤ xp then 2 else if 100 ≤ xp then 1 else 0 := by
  simp [computeRankIndex, RANKS, List.enum, List.enumFrom, List.foldl]

theorem computeRankIndex_greatest (xp : Nat) :
    RANKS.getD (computeRankIndex xp) 0 ≤ xp ∧
    ∀ j, j < RANKS.length → RANKS.getD j 0 ≤ xp → j ≤ computeRankIndex xp := by
  rw [computeRankIndex_eq]
  constructor
  · split_ifs <;> simp [RANKS] <;> omega
  · intro j hj hle
    have hj6 : j < 6 := by simpa [RANKS] using hj
    interval_cases j <;> simp [RANKS] at hle <;> split_ifs <;> omega

theorem find?_map_replace {β : Type} (id : String) (u : β) (users : List (String × β))
    (h : (users.find? (fun p => p.1 = id)).isSome) :
    ((users.map (fun p => if p.1 = id then (id, u) else p)).find?
      (fun p => p.1 = id)) = some (id, u) := by
  induction users with
  | nil => simp at h
  | cons p ps ih =>
      by_cases hp : p.1 = id
      · simp [hp]
      · simp only [List.map_cons]
        rw [if_neg hp]
        rw [List.find?_cons_of_neg _ (by simpa using hp)]
        apply ih
        rw [List.find?_cons_of_neg _ (by simpa using hp)] at h
        exact h

theorem find?_append_absent {β : Type} (id : String) (u : β) (users : List (String × β))
    (h : users.find? (fun p => p.1 = id) = none) :
    ((users ++ [(id, u)]).find? (fun p => p.1 = id)) = some (id, u) := by
  induction users with
  | nil => simp
  | cons p ps ih =>
      by_cases hp : p.1 = id
      · rw [List.find?_cons_of_pos _ (by simpa using hp)] at h
        exact absurd h (by simp)
      · simp only [List.cons_append]
        rw [List.find?_cons_of_neg _ (by simpa using hp)]
        apply ih
        rw [List.find?_cons_of_neg _ (by simpa using hp)] at h
        exact h

theorem find?_setPair {β : Type} (id : String) (u : β) (users : List (String × β)) :
    ((setPair users id u).find? (fun p => p.1 = id)) = some (id, u) := by
  unfold setPair
  by_cases h : (users.find? (fun p => p.1 = id)).isSome
  · rw [if_pos h]
    exact find?_map_replace id u users h
  · rw [if_neg h]
    exact find?_append_absent id u users (Option.not_isSome_iff_eq_none.mp h)

theorem find?_setUser (id : String) (u : UserRec) (users : List (String × UserRec)) :
    ((setUser users id u).find? (fun p => p.1 = id)) = some (id, u) :=
  find?_setPair id u users

theorem lookupUser_setUser (db : DBDoc) (id : String) (u : UserRec) :
    lookupUser { db with users := setUser db.users id u } id = some u := by
  simp [lookupUser, find?_setUser]

/-- Claim C7, counterexample: a fresh-name login returns a logged-in user
(ghostUser) whose record the stale save of login has dropped from the
store (lookupUser finds nothing); addXP for that logged-in user hits the
User-not-found branch of updateUser and persists nothing — the store is
returned unchanged and still carries no record with the new xp — refuting
the claim that the updated record is persisted after every call. -/
theorem C7_counterexample :
    (login emptyDb "Jane Doe!" 5).1 = some ghostUser ∧
    lookupUser ghostDb ghostUser.id = none ∧
    (addXP ghostDb ghostUser 100).2.1 = ghostDb ∧
    (lookupUser (addXP ghostDb ghostUser 100).2.1 ghostUser.id).map UserRec.xp ≠
      some (ghostUser.xp + 100) := by
  decide

/-- Claim C7, amended: for every logged-in user, addXP adds the amount to
xp and recomputes rankIndex as the greatest index of the ascending RANKS
table whose threshold is reached, and the promotion event fires exactly
when the new index exceeds the old; the updated record is persisted to the
store whenever the user's record is present there, but for a logged-in
user whose record is absent from the store (as a fresh-name login leaves
it) the updateUser call fails and the store is left unchanged. -/
theorem C7_theorem (db : DBDoc) (u : UserRec) (amount : Nat) :
    (addXP db u amount).1.xp = u.xp + amount ∧
    (addXP db u amount).1.rankIndex = computeRankIndex (u.xp + amount) ∧
    RANKS.getD ((addXP db u amount).1.rankIndex) 0 ≤ u.xp + amount ∧
    (∀ j, j < RANKS.length → RANKS.getD j 0 ≤ u.xp + amount →
       j ≤ (addXP db u amount).1.rankIndex) ∧
    ((addXP db u amount).2.2 = true ↔ u.rankIndex < (addXP db u amount).1.rankIndex) ∧
    ((lookupUser db u.id).isSome →
       (lookupUser (addXP db u amount).2.1 u.id).map UserRec.xp = some (u.xp + amount) ∧
       (lookupUser (addXP db u amount).2.1 u.id).map UserRec.rankIndex =
         some (computeRankIndex (u.xp + amount))) ∧
    (lookupUser db u.id = none → (addXP db u amount).2.1 = db) := by
  have h1 : (addXP db u amount).1 =
      ⟨u.id, u.name, u.xp + amount, computeRankIndex (u.xp + amount), u.solvedCases,
       u.createdAt, u.lastLogin, u.loginCount⟩ := by
    simp [addXP]
  have h2 : (addXP db u amount).2.2 =
      decide (u.rankIndex < computeRankIndex (u.xp + amount)) := by
    simp [addXP]
  refine ⟨by rw [h1], by rw [h1], ?_, ?_, ?_, ?_, ?_⟩
  · rw [h1]
    exact (computeRankIndex_greatest (u.xp + amount)).1
  · rw [h1]
    exact (computeRankIndex_greatest (u.xp + amount)).2
  · rw [h1, h2]
    simp
  · intro hmem
    obtain ⟨stored, hstored⟩ := Option.isSome_iff_exists.mp hmem
    have hdb : (addXP db u amount).2.1 =
        ⟨setUser db.users u.id ⟨stored.id, u.name, u.xp + amount,
           computeRankIndex (u.xp + amount), u.solvedCases, stored.createdAt,
           u.lastLogin, u.loginCount⟩,
         db.lastUser, db.totalUsers, db.totalCasesSolved⟩ := by
      simp [addXP, updateUser, hstored]
    rw [hdb]
    have hlk := lookupUser_setUser ⟨db.users, db.lastUser, db.totalUsers, db.totalCasesSolved⟩
      u.id ⟨stored.id, u.name, u.xp + amount, computeRankIndex (u.xp + amount),
        u.solvedCases, stored.createdAt, u.lastLogin, u.loginCount⟩
    simp only [] at hlk ⊢
    rw [hlk]
    exact ⟨rfl, rfl⟩
  · intro hnone
    simp [addXP, updateUser, hnone]

/-- Witness for C7_theorem: from xp 0, adding 100 promotes to rank 1 with
a promotion event and adding 50 stays at rank 0 without one; the record is
persisted for the stored demo user, while the store is unchanged for the
ghost user a fresh-name login left out of it. -/
theorem C7_witness :
    (addXP demoDb demoUser 100).1.rankIndex = 1 ∧
    (addXP demoDb demoUser 100).2.2 = true ∧
    (addXP demoDb demoUser 50).1.rankIndex = 0 ∧
    (addXP demoDb demoUser 50).2.2 = false ∧
    (lookupUser (addXP demoDb demoUser 50).2.1 "u1").map UserRec.xp = some 50 ∧
    (addXP ghostDb ghostUser 100).2.1 = ghostDb := by
  have h100 := C7_theorem demoDb demoUser 100
  have h50 := C7_theorem demoDb demoUser 50
  have hghost := C7_theorem ghostDb ghostUser 100
  have hr100 : (addXP demoDb demoUser 100).1.rankIndex = 1 := by
    rw [h100.2.1]; decide
  have hr50 : (addXP demoDb demoUser 50).1.rankIndex = 0 := by
    rw [h50.2.1]; decide
  refine ⟨hr100, ?_, hr50, ?_, ?_, ?_⟩
  · exact (h100.2.2.2.2.1).mpr (by rw [hr100]; decide)
  · by_contra hp
    have := (h50.2.2.2.2.1).mp (by simpa using hp)
    rw [hr50] at this
    exact absurd this (by decide)
  · have := (h50.2.2.2.2.2.1 (by decide)).1
    simpa using this
  · exact hghost.2.2.2.2.2.2 (by decide)

/-!  Claim C8 helpers and claim. -/


theorem mem_collapseUnd (x : Char) : ∀ (l : List Char) (b : Bool),
    x ∈ collapseUnd b l → x ∈ l := by
  intro l
  induction l with
  | nil => intro b h; simp [collapseUnd] at h
  | cons c cs ih =>
      intro b h
      by_cases hc : c = '_'
      · subst hc
        cases b with
        | true =>
            simp only [collapseUnd, if_pos rfl] at h
            exact List.mem_cons_of_mem _ (ih true h)
        | false =>
            simp only [collapseUnd, if_pos rfl] at h
            rcases List.mem_cons.mp h with h | h
            · exact h ▸ List.mem_cons_self _ _
            · exact List.mem_cons_of_mem _ (ih true h)
      · simp only [collapseUnd, if_neg hc] at h
        rcases List.mem_cons.mp h with h | h
        · exact h ▸ List.mem_cons_self _ _
        · exact List.mem_cons_of_mem _ (ih false h)

theorem collapseUnd_true_head : ∀ l : List Char,
    (collapseUnd true l).head? ≠ some '_' := by
  intro l
  induction l with
  | nil => simp [collapseUnd]
  | cons c cs ih =>
      by_cases hc : c = '_'
      · subst hc
        simpa [collapseUnd] using ih
      · simp [collapseUnd, if_neg hc, hc]

theorem collapseUnd_chain : ∀ (l : List Char) (b : Bool),
    List.Chain' (fun a a' => ¬(a = '_' ∧ a' = '_')) (collapseUnd b l) := by
  intro l
  induction l with
  | nil => intro b; simp [collapseUnd]
  | cons c cs ih =>
      intro b
      by_cases hc : c = '_'
      · subst hc
        cases b with
        | true => simpa [collapseUnd] using ih true
        | false =>
            show List.Chain' (fun a a' => ¬(a = '_' ∧ a' = '_')) ('_' :: collapseUnd true cs)
            rw [List.chain'_cons']
            refine ⟨?_, ih true⟩
            intro y hy
            intro ⟨_, hy'⟩
            subst hy'
            exact collapseUnd_true_head cs hy
      · simp only [collapseUnd, if_neg hc]
        rw [List.chain'_cons']
        refine ⟨?_, ih false⟩
        intro y hy
        intro ⟨hc', _⟩
        exact hc hc'

/-- Claim C8: user id derivation lower-cases, trims, replaces characters
outside the id alphabet with underscores and collapses underscore runs
(every output character is in the alphabet, no two consecutive
underscores survive, and names equal up to case and surrounding
whitespace map to the same id); createUser of Jane Doe! followed by login
of jane doe! resolve to the same stored id with no second user created. -/
theorem C8_theorem :
    (∀ n₁ n₂ : String, jsTrim (jsToLower n₁) = jsTrim (jsToLower n₂) →
       generateUserId n₁ = generateUserId n₂) ∧
    (∀ name : String, ∀ ch ∈ (generateUserId name).data, isIdChar ch = true) ∧
    (∀ name : String,
       List.Chain' (fun a a' => ¬(a = '_' ∧ a' = '_')) (generateUserId name).data) ∧
    ((createUser emptyDb "Jane Doe!" 5).1.map UserRec.id) = some "jane_doe_" ∧
    (((login (createUser emptyDb "Jane Doe!" 5).2 "jane doe!" 9).1.map UserRec.id) =
       some "jane_doe_" ∧
     (login (createUser emptyDb "Jane Doe!" 5).2 "jane doe!" 9).2.users.length = 1 ∧
     (lookupUser (login (createUser emptyDb "Jane Doe!" 5).2 "jane doe!" 9).2
        "jane_doe_").isSome) := by
  refine ⟨?_, ?_, ?_, by decide, by decide, by decide, by decide⟩
  · intro n₁ n₂ h
    simp only [generateUserId, h]
  · intro name ch hch
    simp only [generateUserId] at hch
    have hmem := mem_collapseUnd ch _ false hch
    rcases List.mem_map.mp hmem with ⟨c, _, hc⟩
    by_cases hid : isIdChar c = true
    · rw [if_pos hid] at hc
      subst hc
      exact hid
    · rw [if_neg hid] at hc
      subst hc
      decide
  · intro name
    simp only [generateUserId]
    exact collapseUnd_chain _ false

/-- Witness for C8_theorem on two names differing in case and spacing. -/
theorem C8_witness :
    generateUserId "JANE  doe" = generateUserId "  jane  DOE  " :=
  C8_theorem.1 "JANE  doe" "  jane  DOE  " (by decide)

/-!  Claims C9 and C10. -/


theorem hasKey_setField_self (fields : List (String × JVal)) (k : String) (v : JVal) :
    hasKey (setField fields k v) k = true := by
  simp [hasKey, setField, find?_setPair]

theorem find?_map_keep {β : Type} (id k : String) (v : β) (l : List (String × β))
    (hk : k ≠ id) :
    (((l.map (fun p => if p.1 = id then (id, v) else p)).find? (fun p => p.1 = k)).isSome) =
      ((l.find? (fun p => p.1 = k)).isSome) := by
  induction l with
  | nil => rfl
  | cons p ps ih =>
      by_cases hp : p.1 = id
      · simp only [List.map_cons, if_pos hp]
        rw [List.find?_cons_of_neg _ (by simp [Ne.symm hk]),
            List.find?_cons_of_neg _ (by simp [hp, Ne.symm hk])]
        exact ih
      · simp only [List.map_cons, if_neg hp]
        by_cases hpk : p.1 = k
        · rw [List.find?_cons_of_pos _ (by simpa using hpk),
              List.find?_cons_of_pos _ (by simpa using hpk)]
        · rw [List.find?_cons_of_neg _ (by simpa using hpk),
              List.find?_cons_of_neg _ (by simpa using hpk)]
          exact ih

theorem hasKey_setField_keep (fields : List (String × JVal)) (key k : String) (v : JVal)
    (h : hasKey fields k = true) : hasKey (setField fields key v) k = true := by
  by_cases hk : k = key
  · subst hk
    exact hasKey_setField_self fields k v
  · unfold hasKey at h ⊢
    unfold setField setPair
    split
    · rw [find?_map_keep key k v fields hk]
      exact h
    · rw [List.find?_append]
      cases hfind : fields.find? (fun p => p.1 = k) with
      | none => rw [hfind] at h; simp at h
      | some x => simp [hfind]

/-- Claim C9, counterexample: importing the JSON text of an empty object,
which is not structurally a valid persistence document, is accepted (the
operation reports success) and overwrites the previously valid stored
document with an invalid one, instead of rejecting it unchanged. -/
theorem C9_counterexample :
    (importData (some validDoc) (some (.jobj [])) 7).1 = true ∧
    ((importData (some validDoc) (some (.jobj [])) 7).2.map isValidShape) = some false ∧
    isValidShape (.jobj []) = false ∧
    isValidShape validDoc = true := by
  decide

/-- Claim C9, amended: import rejects exactly the inputs that fail to
parse or parse to a non-object value (null, boolean, number or string),
leaving the store unchanged; any parsed object, even one missing the
required shape, is accepted and saved wholesale with version and
lastUpdated stamped, all its keys preserved, so a structurally valid
document keeps its shape; a parsed array is stored as-is. -/
theorem C9_theorem (stored : Option JVal) (parsed : Option JVal) (now : Int) :
    (parsed = none → importData stored parsed now = (false, stored)) ∧
    (∀ v, parsed = some v → (jsTruthy v && isObjectType v) = false →
       importData stored parsed now = (false, stored)) ∧
    (∀ fields, parsed = some (.jobj fields) →
       (importData stored parsed now).1 = true ∧
       ∃ fields', (importData stored parsed now).2 = some (.jobj fields') ∧
         (∀ k, hasKey fields k = true → hasKey fields' k = true) ∧
         hasKey fields' "version" = true ∧ hasKey fields' "lastUpdated" = true ∧
         (isValidShape (.jobj fields) = true → isValidShape (.jobj fields') = true)) ∧
    (∀ elems, parsed = some (.jarr elems) →
       importData stored parsed now = (true, some (.jarr elems))) := by
  refine ⟨?_, ?_, ?_, ?_⟩
  · intro h
    subst h
    rfl
  · intro v hv hfalse
    subst hv
    have hcond : ¬(jsTruthy v = true ∧ isObjectType v = true) := by
      rw [← Bool.and_eq_true]
      simp [hfalse]
    simp [importData, hcond]
  · intro fields hf
    subst hf
    have hrun : importData stored (some (.jobj fields)) now =
        (true, some (.jobj (setField (setField fields "version" (.jnum 2))
          "lastUpdated" (.jnum now)))) := by
      simp [importData, saveDoc, jsTruthy, isObjectType]
    rw [hrun]
    refine ⟨rfl, setField (setField fields "version" (.jnum 2)) "lastUpdated" (.jnum now),
            rfl, ?_, ?_, ?_, ?_⟩
    · intro k hkk
      exact hasKey_setField_keep _ _ _ _ (hasKey_setField_keep _ _ _ _ hkk)
    · exact hasKey_setField_keep _ _ _ _ (hasKey_setField_self _ _ _)
    · exact hasKey_setField_self _ _ _
    · intro hvalid
      simp only [isValidShape, Bool.and_eq_true] at hvalid ⊢
      refine ⟨⟨⟨⟨?_, ?_⟩, ?_⟩, ?_⟩, ?_⟩
      · exact hasKey_setField_keep _ _ _ _ (hasKey_setField_self _ _ _)
      · exact hasKey_setField_keep _ _ _ _ (hasKey_setField_keep _ _ _ _ hvalid.1.1.1.2)
      · exact hasKey_setField_keep _ _ _ _ (hasKey_setField_keep _ _ _ _ hvalid.1.1.2)
      · exact hasKey_setField_keep _ _ _ _ (hasKey_setField_keep _ _ _ _ hvalid.1.2)
      · exact hasKey_setField_keep _ _ _ _ (hasKey_setField_keep _ _ _ _ hvalid.2)
  · intro elems he
    subst he
    simp [importData, saveDoc, jsTruthy, isObjectType]

/-- Witness for C9_theorem: a parse failure and a number are rejected with
the store unchanged, an array is stored as-is. -/
theorem C9_witness :
    importData (some validDoc) none 7 = (false, some validDoc) ∧
    importData (some validDoc) (some (.jnum 3)) 7 = (false, some validDoc) ∧
    importData (some validDoc) (some (.jarr [])) 7 = (true, some (.jarr [])) :=
  ⟨(C9_theorem (some validDoc) none 7).1 rfl,
   (C9_theorem (some validDoc) (some (.jnum 3)) 7).2.1 (.jnum 3) rfl (by decide),
   (C9_theorem (some validDoc) (some (.jarr [])) 7).2.2.2 [] rfl⟩

/-- Claim C10: addSolvedCase appends exactly one solved-case record to the
stored user's list while leaving the persisted statistics counters (in
particular totalCasesSolved) and the lastUser reference unchanged: the
increment happens on a re-read copy of the document that is never saved. -/
theorem C10_theorem (db : DBDoc) (userId : String) (cd : CaseResultData) (now : Int)
    (user : UserRec) (h : lookupUser db userId = some user) :
    (addSolvedCase db userId cd now).1 = true ∧
    (lookupUser (addSolvedCase db userId cd now).2 userId).map UserRec.solvedCases =
      some (user.solvedCases ++ [mkSolvedCase cd now]) ∧
    (addSolvedCase db userId cd now).2.totalCasesSolved = db.totalCasesSolved ∧
    (addSolvedCase db userId cd now).2.totalUsers = db.totalUsers ∧
    (addSolvedCase db userId cd now).2.lastUser = db.lastUser := by
  have hrun : addSolvedCase db userId cd now =
      (true, ⟨setUser db.users userId
         ⟨user.id, user.name, user.xp, user.rankIndex,
          user.solvedCases ++ [mkSolvedCase cd now], user.createdAt, user.lastLogin,
          user.loginCount⟩, db.lastUser, db.totalUsers, db.totalCasesSolved⟩) := by
    simp [addSolvedCase, updateUser, h]
  rw [hrun]
  refine ⟨rfl, ?_, rfl, rfl, rfl⟩
  have := lookupUser_setUser ⟨db.users, db.lastUser, db.totalUsers, db.totalCasesSolved⟩ userId
    ⟨user.id, user.name, user.xp, user.rankIndex,
     user.solvedCases ++ [mkSolvedCase cd now], user.createdAt, user.lastLogin,
     user.loginCount⟩
  simp only [] at this ⊢
  rw [this]
  rfl

/-- Witness for C10_theorem at the demo database. -/
theorem C10_witness :
    (addSolvedCase demoDb "u1" noCaseData 11).1 = true ∧
    (lookupUser (addSolvedCase demoDb "u1" noCaseData 11).2 "u1").map UserRec.solvedCases =
      some (demoUser.solvedCases ++ [mkSolvedCase noCaseData 11]) ∧
    (addSolvedCase demoDb "u1" noCaseData 11).2.totalCasesSolved = demoDb.totalCasesSolved ∧
    (addSolvedCase demoDb "u1" noCaseData 11).2.totalUsers = demoDb.totalUsers ∧
    (addSolvedCase demoDb "u1" noCaseData 11).2.lastUser = demoDb.lastUser :=
  C10_theorem demoDb "u1" noCaseData 11 demoUser (by decide)


end Redacted
